import Mathlib

/-!
Verification of the Price Discovery and Selection Engine (`src/main.py`).

The engine is embedded shallowly:

* monetary values are exact: the regex `(\d+(?:\.\d{1,2})?)` only ever
  produces decimals with at most two fractional digits, so every price the
  code manipulates is an integer number of hundredths; `price_value` is
  modelled as that number of hundredths (a `Nat`), and `priceRat` renders it
  back as the rational amount (9.99 is `999` hundredths). Comparisons of
  such values agree with Python's float comparisons;
* the SerpApi backend is an abstract function
  `provider : String → String → ProviderResponse` mapping a query string and
  a `gl` region code to either a hard error (an `"error"` key in the
  response) or the list `result.get("shopping_results", []) or []`;
* the module-global `SERPAPI_KEY` is a boolean `hasKey` parameter;
* the module-global `price_history` deque is threaded explicitly as a
  `List LedgerEntry` (oldest first, bounded by `HISTORY_LIMIT`);
* `datetime.utcnow().isoformat() + "Z"` is an explicit `ts` parameter;
* `search` additionally returns the list of `(query, country)` argument
  pairs of the `call_serpapi` invocations it performed, so that claims
  about which provider calls happen can be stated;
* lowercasing is per character (`Char.toLower`), which agrees with Python's
  `str.lower` on all ASCII text — the wholesale keywords are ASCII.

Statuses are the literal message strings of the code: `MISSING_CONFIG` is
"missing_serpapi_key", `PROVIDER_ERROR` is "serpapi_error: <detail>",
`NO_RESULTS` is "no_shopping_results", `NO_PRICE_PARSED` is
"no_price_parsed", `OK` is "ok"; modes `WHOLESALE_PRIORITY` and
`RETAIL_FALLBACK` are "wholesale_priority" and "retail_fallback".
-/

set_option autoImplicit false

namespace PriceFinder

/-- A raw offer dictionary as returned inside `shopping_results`. Only the
keys the engine reads are modelled; a missing key is `none`. SerpApi's
`extracted_price` is numeric in reality but is only ever passed through
`str(...)` / `or`-chains, so it is modelled as the string it stringifies to
(with `none` also covering falsy `0`/`0.0`). -/
structure RawOffer where
  title : Option String := none
  price : Option String := none
  extracted_price : Option String := none
  source : Option String := none
  store : Option String := none
  snippet : Option String := none
  link : Option String := none
deriving DecidableEq, Repr

/-- Python `d.get(k) or ""` for an optional string field: `None` and `""` are
both falsy and collapse to `""`. -/
def optStr : Option String → String
  | none => ""
  | some s => s

/-- Python `a or b` on strings: `a` if non-empty, else `b`. -/
def pyOrS (a b : String) : String :=
  if a = "" then b else a

/-! ### PriceParser: `parse_price_to_number`

`re.search(r"(\d+(?:\.\d{1,2})?)", str(price_raw))` finds the leftmost-first
match: the first position holding a digit starts the match, `\d+` greedily
takes the maximal digit run, and the optional fractional group takes `.`
plus two digits, else `.` plus one digit, else nothing. -/

/-- Maximal leading digit run of a character list, with the remainder. -/
def takeDigits : List Char → List Char × List Char
  | [] => ([], [])
  | c :: cs =>
    if c.isDigit then
      let p := takeDigits cs
      (c :: p.1, p.2)
    else ([], c :: cs)

/-- Fractional digits matched by `(?:\.\d{1,2})?` (greedy: 2 digits, else 1,
else nothing), given the text that follows the integer digit run. -/
def fracDigits : List Char → List Char
  | '.' :: c1 :: c2 :: _ =>
    if c1.isDigit then (if c2.isDigit then [c1, c2] else [c1]) else []
  | ['.', c1] => if c1.isDigit then [c1] else []
  | _ => []

/-- Leftmost match of the price regex: integer digits and fractional digits,
or `none` when the text holds no digit at all. -/
def scanNumber : List Char → Option (List Char × List Char)
  | [] => none
  | c :: cs =>
    if c.isDigit then
      let p := takeDigits (c :: cs)
      some (p.1, fracDigits p.2)
    else scanNumber cs

/-- Numeric value of a digit string (most significant digit first). -/
def digitsToNat (l : List Char) : Nat :=
  l.foldl (fun a c => a * 10 + (c.toNat - 48)) 0

/-- Embedding of `parse_price_to_number`: the value of `float(m.group(1))`
for the first regex match, in hundredths, or `0` (the code's `0.0`) when
there is no match. A match `i.f` with fractional digits `f` of length
`k ≤ 2` is worth `i * 100 + f * 10 ^ (2 - k)` hundredths. -/
def parse_price_to_number (price_raw : String) : Nat :=
  match scanNumber price_raw.toList with
  | none => 0
  | some p => digitsToNat p.1 * 100 + digitsToNat p.2 * 10 ^ (2 - p.2.length)

/-- The rational amount denoted by a price in hundredths. -/
def priceRat (pence : Nat) : ℚ :=
  (pence : ℚ) / 100

/-! ### OfferClassifier: `looks_wholesale` -/

/-- The fixed keyword list `WHOLESALE_KEYWORDS` of the source. -/
def WHOLESALE_KEYWORDS : List String :=
  ["wholesale", "bulk", "case of", "case", "carton", "box of", "pack of",
   "trade", "b2b", "pack x", "x10", "x12", "x24", "x48"]

/-- Whether `n` is an initial segment of `h` (character lists). -/
def listLeads : List Char → List Char → Bool
  | [], _ => true
  | _ :: _, [] => false
  | a :: as, b :: bs => a == b && listLeads as bs

/-- Whether `needle` occurs as a contiguous run inside `hay`; this is the
Python substring test `needle in hay`. -/
def listHas (needle : List Char) : List Char → Bool
  | [] => listLeads needle []
  | c :: cs => listLeads needle (c :: cs) || listHas needle cs

/-- Python `kw in text` for a text given as characters. -/
def textHas (hay : List Char) (kw : String) : Bool :=
  listHas kw.toList hay

/-- The classification text `((title or "") + " " + (source or "") + " " +
(snippet or "")).lower()`, as a character list. -/
def wholesaleText (item : RawOffer) : List Char :=
  ((optStr item.title ++ " " ++ optStr item.source ++ " " ++ optStr item.snippet).toList).map
    Char.toLower

/-- Embedding of `looks_wholesale`: some keyword occurs in the lowercased
concatenated text. -/
def looks_wholesale (item : RawOffer) : Bool :=
  WHOLESALE_KEYWORDS.any (fun kw => textHas (wholesaleText item) kw)

/-! ### Offers as processed by `search`

The loop bodies `item["price_raw"] = str(price_raw)` and
`item["price_value"] = parse_price_to_number(price_raw)` extend each raw
offer dictionary with two computed keys. -/

/-- A raw offer together with the two keys `search` adds to it. -/
structure Offer where
  raw : RawOffer
  price_raw : String
  price_value : Nat
deriving DecidableEq, Repr

/-- The per-offer processing loop of `search`:
`price_raw = item.get("price") or item.get("extracted_price") or ""`,
then store `str(price_raw)` and `parse_price_to_number(price_raw)`. -/
def enrich (item : RawOffer) : Offer :=
  let pr := pyOrS (optStr item.price) (optStr item.extracted_price)
  { raw := item, price_raw := pr, price_value := parse_price_to_number pr }

/-! ### ActivityLedger: `price_history`, `record_history`, `get_history` -/

/-- The source's `HISTORY_LIMIT`. -/
def HISTORY_LIMIT : Nat := 200

/-- One entry of the `price_history` deque, as built by `record_history`. -/
structure LedgerEntry where
  ts : String
  query : String
  country : String
  mode : String
  title : String
  price_value : Nat
  price_raw : String
  source : String
deriving DecidableEq, Repr

/-- Appending to `deque(maxlen=HISTORY_LIMIT)`: the new element goes to the
back; if the length would exceed the bound, elements are dropped from the
front. -/
def dequeAppend (hist : List LedgerEntry) (e : LedgerEntry) : List LedgerEntry :=
  if HISTORY_LIMIT < (hist ++ [e]).length then
    (hist ++ [e]).drop ((hist ++ [e]).length - HISTORY_LIMIT)
  else hist ++ [e]

/-- Embedding of `record_history`: build the compact entry from `best` and
append it to the global deque. The `ts` parameter stands for
`datetime.utcnow().isoformat() + "Z"`. Entry construction cannot fail in
the model, so the `try/except` is invisible. -/
def record_history (ts query country mode : String) (best : Offer)
    (hist : List LedgerEntry) : List LedgerEntry :=
  dequeAppend hist
    { ts := ts
      query := query
      country := country
      mode := mode
      title := optStr best.raw.title
      price_value := best.price_value
      price_raw := pyOrS best.price_raw (optStr best.raw.price)
      source := pyOrS (optStr best.raw.source) (optStr best.raw.store) }

/-- Embedding of the `/history` endpoint `get_history`: clamp `limit` to
`[1, HISTORY_LIMIT]`, then return `list(price_history)[-limit:][::-1]`
(the last `limit` entries, newest first). -/
def get_history (limit : Int) (hist : List LedgerEntry) : List LedgerEntry :=
  (hist.drop (hist.length - (max 1 (min limit (HISTORY_LIMIT : Int))).toNat)).reverse

/-! ### Provider interface and `call_serpapi` -/

/-- A SerpApi response, as the engine reads it: a dict with an `"error"` key
is a hard error; otherwise the offers are
`result.get("shopping_results", []) or []`. -/
inductive ProviderResponse where
  | err : String → ProviderResponse
  | ok : List RawOffer → ProviderResponse
deriving DecidableEq, Repr

/-- The `gl_map` lookup of `call_serpapi`: map the UI country (lowercased)
to the SerpApi `gl` code, defaulting to `"uk"`. -/
def gl_map (country : String) : String :=
  let c := (country.toList.map Char.toLower).asString
  if c = "uk" then "uk"
  else if c = "us" then "us"
  else if c = "eu" then "de"
  else if c = "au" then "au"
  else "uk"

/-- Embedding of `call_serpapi`: fail when the key is missing, otherwise
consult the abstract SerpApi backend with the query and the mapped `gl`
region code. -/
def call_serpapi (hasKey : Bool) (provider : String → String → ProviderResponse)
    (query country : String) : ProviderResponse :=
  if !hasKey then .err "missing_serpapi_key"
  else provider query (gl_map country)

/-! ### SearchOrchestrator: the `/search` endpoint -/

/-- Python's `min(items, key=lambda x: x["price_value"])` starting from a
current minimum: a later element replaces the current one only when its key
is strictly smaller, so the first occurrence of the minimum wins. -/
def minByPrice (cur : Offer) : List Offer → Offer
  | [] => cur
  | x :: xs =>
    if x.price_value < cur.price_value then minByPrice x xs else minByPrice cur xs

/-- Python `min` on a possibly-empty list of offers. -/
def pyMin : List Offer → Option Offer
  | [] => none
  | x :: xs => some (minByPrice x xs)

/-- The tier-1 query: `f"{query} wholesale bulk trade b2b case pack"`. -/
def wholesale_query (query : String) : String :=
  query ++ " wholesale bulk trade b2b case pack"

/-- The tier-1 filter `[i for i in shopping1 if looks_wholesale(i) and
i["price_value"] > 0]`. -/
def wholesaleFilter (shopping1 : List Offer) : List Offer :=
  shopping1.filter fun i => looks_wholesale i.raw && decide (0 < i.price_value)

/-- The tier-2 filter `[i for i in shopping2 if i["price_value"] > 0]`. -/
def pricedFilter (shopping2 : List Offer) : List Offer :=
  shopping2.filter fun i => decide (0 < i.price_value)

/-- The JSON payload returned by `/search`; `mode` is `none` on the payloads
that carry no `"mode"` key. -/
structure SearchResult where
  query : String
  country : String
  message : String
  best : Option Offer
  results : List Offer
  mode : Option String
deriving DecidableEq, Repr

/-- A `/search` call's result together with its two side channels: the
final state of the `price_history` deque and the `(query, country)`
argument pairs of the `call_serpapi` invocations it made, in order. -/
structure SearchOutcome where
  result : SearchResult
  history : List LedgerEntry
  calls : List (String × String)
deriving DecidableEq, Repr

/-- Embedding of the `/search` endpoint `search`: missing-key check, tier 1
with the wholesale-biased query, tier-1 filter and selection, then the
retail fallback tier with the original query. -/
def search (hasKey : Bool) (provider : String → String → ProviderResponse)
    (ts query country : String) (hist : List LedgerEntry) : SearchOutcome :=
  if !hasKey then
    ⟨⟨query, country, "missing_serpapi_key", none, [], none⟩, hist, []⟩
  else
    match call_serpapi hasKey provider (wholesale_query query) country with
    | .err e =>
      ⟨⟨query, country, "serpapi_error: " ++ e, none, [], none⟩, hist,
        [(wholesale_query query, country)]⟩
    | .ok offers1 =>
      match pyMin (wholesaleFilter (offers1.map enrich)) with
      | some best =>
        ⟨⟨query, country, "ok", some best, wholesaleFilter (offers1.map enrich),
            some "wholesale_priority"⟩,
          record_history ts query country "wholesale_priority" best hist,
          [(wholesale_query query, country)]⟩
      | none =>
        match call_serpapi hasKey provider query country with
        | .err e =>
          ⟨⟨query, country, "serpapi_error: " ++ e, none, [], none⟩, hist,
            [(wholesale_query query, country), (query, country)]⟩
        | .ok offers2 =>
          if offers2.isEmpty then
            ⟨⟨query, country, "no_shopping_results", none, [], none⟩, hist,
              [(wholesale_query query, country), (query, country)]⟩
          else
            match pyMin (pricedFilter (offers2.map enrich)) with
            | none =>
              ⟨⟨query, country, "no_price_parsed", none, offers2.map enrich,
                  some "retail_fallback"⟩,
                hist, [(wholesale_query query, country), (query, country)]⟩
            | some best =>
              ⟨⟨query, country, "ok", some best, pricedFilter (offers2.map enrich),
                  some "retail_fallback"⟩,
                record_history ts query country "retail_fallback" best hist,
                [(wholesale_query query, country), (query, country)]⟩

/-- Follows the spec's words, for refinement comparison only (the code never
reads `link`): an Offer is "usable" iff `price_value` is present and `> 0`
and `link` is non-empty. -/
def usableSpec (o : Offer) : Bool :=
  decide (0 < o.price_value) && !(optStr o.raw.link == "")

/-! ### Concrete fixtures used by counterexamples and witnesses -/

/-- A wholesale-looking offer with a positive price but no link. -/
def cexO1 : RawOffer := { title := some "bulk crate cheap", price := some "£3.00" }

/-- A wholesale-looking offer with a positive price and a link. -/
def cexO2 : RawOffer :=
  { title := some "bulk crate", price := some "£5.00", link := some "https://example.com/a" }

/-- A provider that always returns both fixture offers. -/
def cexProv12 : String → String → ProviderResponse := fun _ _ => .ok [cexO1, cexO2]

/-- A provider that always returns only the linkless fixture offer. -/
def cexProv1 : String → String → ProviderResponse := fun _ _ => .ok [cexO1]

/-- A fixed ledger entry used to exercise the ledger bound. -/
def e0 : LedgerEntry :=
  { ts := "t0", query := "q", country := "uk", mode := "retail_fallback",
    title := "x", price_value := 100, price_raw := "£1.00", source := "s" }

/-- A provider that always reports a hard error. -/
def cexProvErr : String → String → ProviderResponse := fun _ _ => .err "invalid api key"

/-- A provider with no wholesale tier-1 offers and one priced retail offer
for the plain query. -/
def cexProvRetail : String → String → ProviderResponse := fun q _ =>
  if q = "plain treats" then
    .ok [{ title := some "Plain treats", price := some "£7.49",
           link := some "https://example.com/p" }]
  else .ok []

/-- A provider that always returns zero offers. -/
def cexProvEmpty : String → String → ProviderResponse := fun _ _ => .ok []

/-! ### Helper lemmas -/

/-- A list leads with `n` exactly when it is `n` followed by some rest. -/
theorem listLeads_iff (n : List Char) : ∀ h : List Char,
    listLeads n h = true ↔ ∃ r, h = n ++ r := by
  induction n with
  | nil => intro h; simp [listLeads]
  | cons a as ih =>
    intro h
    cases h with
    | nil => simp [listLeads]
    | cons b bs =>
      simp only [listLeads, Bool.and_eq_true, beq_iff_eq, ih, List.cons_append,
        List.cons.injEq]
      constructor
      · rintro ⟨rfl, r, rfl⟩; exact ⟨r, rfl, rfl⟩
      · rintro ⟨r, rfl, rfl⟩; exact ⟨rfl, r, rfl⟩

/-- The Python substring test: `listHas n h` holds exactly when `h`
decomposes as some text, then `n`, then some text. -/
theorem listHas_iff (n : List Char) : ∀ h : List Char,
    listHas n h = true ↔ ∃ l r, h = l ++ n ++ r := by
  intro h
  induction h with
  | nil =>
    rw [listHas, listLeads_iff]
    constructor
    · rintro ⟨r, hr⟩; exact ⟨[], r, by simpa using hr⟩
    · rintro ⟨l, r, hr⟩
      rcases List.append_eq_nil.mp (List.append_eq_nil.mp hr.symm).1 with ⟨h1, h2⟩
      exact ⟨[], by simp [h1, h2, (List.append_eq_nil.mp hr.symm).2.symm]⟩
  | cons c cs ih =>
    rw [listHas, Bool.or_eq_true, listLeads_iff, ih]
    constructor
    · rintro (⟨r, hr⟩ | ⟨l, r, hr⟩)
      · exact ⟨[], r, by simpa using hr⟩
      · exact ⟨c :: l, r, by simp [hr]⟩
    · rintro ⟨l, r, hr⟩
      cases l with
      | nil => exact Or.inl ⟨r, by simpa using hr⟩
      | cons x xs =>
        right
        injection hr with h1 h2
        exact ⟨xs, r, h2⟩

/-- The running minimum is a lower bound of the whole list. -/
theorem minByPrice_le (cur : Offer) (l : List Offer) :
    ∀ x ∈ cur :: l, (minByPrice cur l).price_value ≤ x.price_value := by
  induction l generalizing cur with
  | nil =>
    intro x hx
    rcases List.mem_cons.mp hx with rfl | h
    · simp [minByPrice]
    · cases h
  | cons y ys ih =>
    intro x hx
    rw [minByPrice]
    rcases List.mem_cons.mp hx with h1 | h
    · rw [h1]
      split
      next hlt => exact le_trans (ih y y (by simp)) (le_of_lt hlt)
      next hge => exact ih cur cur (by simp)
    · rcases List.mem_cons.mp h with h2 | h2
      · rw [h2]
        split
        next hlt => exact ih y y (by simp)
        next hge => exact le_trans (ih cur cur (by simp)) (Nat.le_of_not_lt hge)
      · split
        next => exact ih y x (by simp [h2])
        next => exact ih cur x (by simp [h2])

/-- The running minimum is the first occurrence of the minimal price:
everything strictly before it in the list is strictly more expensive. -/
theorem minByPrice_decomp (cur : Offer) (l : List Offer) :
    ∃ l1 l2, cur :: l = l1 ++ minByPrice cur l :: l2 ∧
      ∀ x ∈ l1, (minByPrice cur l).price_value < x.price_value := by
  induction l generalizing cur with
  | nil => exact ⟨[], [], by simp [minByPrice], by simp⟩
  | cons y ys ih =>
    rw [minByPrice]
    split
    next hlt =>
      obtain ⟨l1, l2, hdec, hgt⟩ := ih y
      refine ⟨cur :: l1, l2, ?_, ?_⟩
      · rw [List.cons_append, ← hdec]
      · intro x hx
        rcases List.mem_cons.mp hx with rfl | hx2
        · exact lt_of_le_of_lt (minByPrice_le y ys y (by simp)) hlt
        · exact hgt x hx2
    next hge =>
      obtain ⟨l1, l2, hdec, hgt⟩ := ih cur
      cases l1 with
      | nil =>
        injection hdec with h1 h2
        exact ⟨[], y :: ys, by rw [← h1]; rfl, by simp⟩
      | cons a l1t =>
        injection hdec with h1 h2
        refine ⟨cur :: y :: l1t, l2, ?_, ?_⟩
        · conv_lhs => rw [h2]
          rfl
        intro x hx
        have hcur : (minByPrice cur ys).price_value < cur.price_value := by
          have := hgt a (by simp)
          rwa [← h1] at this
        rcases List.mem_cons.mp hx with rfl | hx2
        · exact hcur
        rcases List.mem_cons.mp hx2 with rfl | hx3
        · exact lt_of_lt_of_le hcur (Nat.le_of_not_lt hge)
        · exact hgt x (by simp [hx3])

/-- Python `min` on an empty list only. -/
theorem pyMin_eq_none (l : List Offer) : pyMin l = none ↔ l = [] := by
  cases l <;> simp [pyMin]

/-- Specification of Python `min` with a key: the result splits the list
with strictly larger keys before it (first occurrence wins) and is a lower
bound of the whole list. -/
theorem pyMin_spec {l : List Offer} {b : Offer} (h : pyMin l = some b) :
    (∃ l1 l2, l = l1 ++ b :: l2 ∧ ∀ x ∈ l1, b.price_value < x.price_value) ∧
      ∀ x ∈ l, b.price_value ≤ x.price_value := by
  cases l with
  | nil => simp [pyMin] at h
  | cons x xs =>
    rw [pyMin, Option.some.injEq] at h
    subst h
    exact ⟨minByPrice_decomp x xs, minByPrice_le x xs⟩

/-- The selected offer is one of the candidates. -/
theorem pyMin_mem {l : List Offer} {b : Offer} (h : pyMin l = some b) : b ∈ l := by
  obtain ⟨⟨l1, l2, hdec, _⟩, _⟩ := pyMin_spec h
  rw [hdec]
  exact List.mem_append_right _ (List.mem_cons_self _ _)

/-- The price regex has no match in digit-free text. -/
theorem scanNumber_eq_none : ∀ l : List Char, (∀ c ∈ l, c.isDigit = false) →
    scanNumber l = none := by
  intro l
  induction l with
  | nil => intro _; rfl
  | cons c cs ih =>
    intro h
    rw [scanNumber]
    simp [h c (by simp), ih fun d hd => h d (by simp [hd])]

/-- Everything passing the tier-1 filter has a positive price. -/
theorem mem_wholesaleFilter_pos {l : List Offer} {x : Offer}
    (h : x ∈ wholesaleFilter l) : 0 < x.price_value := by
  have h2 := (List.mem_filter.mp h).2
  rw [Bool.and_eq_true] at h2
  exact of_decide_eq_true h2.2

/-- Everything passing the tier-1 filter classifies as wholesale. -/
theorem mem_wholesaleFilter_wholesale {l : List Offer} {x : Offer}
    (h : x ∈ wholesaleFilter l) : looks_wholesale x.raw = true := by
  have h2 := (List.mem_filter.mp h).2
  rw [Bool.and_eq_true] at h2
  exact h2.1

/-- Everything passing the tier-2 filter has a positive price. -/
theorem mem_pricedFilter_pos {l : List Offer} {x : Offer}
    (h : x ∈ pricedFilter l) : 0 < x.price_value :=
  of_decide_eq_true (List.mem_filter.mp h).2

/-- The missing-credential message is never the success message. -/
theorem msg_ne_ok_missing : ("missing_serpapi_key" : String) ≠ "ok" := by decide

/-- The empty-tier-2 message is never the success message. -/
theorem msg_ne_ok_no_results : ("no_shopping_results" : String) ≠ "ok" := by decide

/-- The unparsable-price message is never the success message. -/
theorem msg_ne_ok_no_price : ("no_price_parsed" : String) ≠ "ok" := by decide

/-- A provider-error message is never the success message. -/
theorem serpapi_msg_ne_ok (e : String) : "serpapi_error: " ++ e ≠ "ok" := by
  intro h
  have hl := congrArg String.length h
  rw [String.length_append] at hl
  have h1 : ("serpapi_error: " : String).length = 15 := rfl
  have h2 : ("ok" : String).length = 2 := rfl
  omega

/-- Folding deque appends keeps exactly the last `HISTORY_LIMIT` elements of
everything ever appended. -/
theorem foldl_dequeAppend (es : List LedgerEntry) :
    ∀ acc : List LedgerEntry, acc.length ≤ HISTORY_LIMIT →
      es.foldl dequeAppend acc = (acc ++ es).drop ((acc ++ es).length - HISTORY_LIMIT) := by
  induction es with
  | nil =>
    intro acc h
    simp [Nat.sub_eq_zero_of_le h]
  | cons e es ih =>
    intro acc h
    rw [List.foldl_cons]
    have hlen : (dequeAppend acc e).length ≤ HISTORY_LIMIT := by
      unfold dequeAppend
      split
      next hgt => simp; omega
      next hle => simp at hle ⊢; omega
    rw [ih (dequeAppend acc e) hlen]
    unfold dequeAppend
    split
    next hgt =>
      have hacc : acc.length = HISTORY_LIMIT := by
        simp only [List.length_append, List.length_cons, List.length_nil] at hgt
        omega
      have h1 : (acc ++ [e]).length - HISTORY_LIMIT = 1 := by
        simp [hacc]
      rw [h1]
      have h2 : (acc ++ [e]).drop 1 ++ es = (acc ++ e :: es).drop 1 := by
        have hle1 : 1 ≤ (acc ++ [e]).length := by simp
        rw [← List.drop_append_of_le_length hle1, List.append_assoc,
          List.singleton_append]
      rw [h2, List.drop_drop]
      have h3 : 1 + (((acc ++ e :: es).drop 1).length - HISTORY_LIMIT)
          = (acc ++ e :: es).length - HISTORY_LIMIT := by
        simp only [List.length_drop, List.length_append, List.length_cons,
          HISTORY_LIMIT] at hacc ⊢
        omega
      rw [h3]
    next hle =>
      rw [List.append_assoc, List.singleton_append]

/-- The history endpoint returns the newest `limit` (clamped) entries,
newest first: it is a prefix of the reversed ledger. -/
theorem get_history_eq (limit : Int) (hist : List LedgerEntry) :
    get_history limit hist
      = hist.reverse.take (max 1 (min limit (HISTORY_LIMIT : Int))).toNat := by
  unfold get_history
  generalize (max 1 (min limit (HISTORY_LIMIT : Int))).toNat = n
  have h := @List.reverse_take LedgerEntry hist.reverse n
  rw [List.reverse_reverse, List.length_reverse] at h
  rw [← h, List.reverse_reverse]

/-- A deque append always ends with the appended element. -/
theorem dequeAppend_eq_append (hist : List LedgerEntry) (e : LedgerEntry) :
    ∃ X, dequeAppend hist e = X ++ [e] := by
  unfold dequeAppend
  split
  next hgt =>
    refine ⟨hist.drop ((hist ++ [e]).length - HISTORY_LIMIT), ?_⟩
    rw [List.drop_append_of_le_length ?hk]
    case hk =>
      show (hist ++ [e]).length - 200 ≤ hist.length
      have hlen : (hist ++ [e]).length = hist.length + 1 := by simp
      omega
  next => exact ⟨hist, rfl⟩

/-- Reading one entry right after an append yields that entry. -/
theorem get_history_one_dequeAppend (hist : List LedgerEntry) (e : LedgerEntry) :
    get_history 1 (dequeAppend hist e) = [e] := by
  rw [get_history_eq]
  have hc : (max 1 (min (1 : Int) (HISTORY_LIMIT : Int))).toNat = 1 := by decide
  rw [hc]
  obtain ⟨X, hX⟩ := dequeAppend_eq_append hist e
  rw [hX, List.reverse_append]
  simp

/-! ### Reduction lemmas: one per branch of `search` -/

/-- Missing credential: the precondition check returns immediately. -/
theorem search_missing_key (provider : String → String → ProviderResponse)
    (ts query country : String) (hist : List LedgerEntry) :
    search false provider ts query country hist =
      ⟨⟨query, country, "missing_serpapi_key", none, [], none⟩, hist, []⟩ := rfl

/-- With the credential present, `search` is the two-tier match on the two
provider responses (the `call_serpapi` wrapper reduced away). -/
theorem search_true_unfold (provider : String → String → ProviderResponse)
    (ts query country : String) (hist : List LedgerEntry) :
    search true provider ts query country hist =
      match provider (wholesale_query query) (gl_map country) with
      | .err e =>
        ⟨⟨query, country, "serpapi_error: " ++ e, none, [], none⟩, hist,
          [(wholesale_query query, country)]⟩
      | .ok offers1 =>
        match pyMin (wholesaleFilter (offers1.map enrich)) with
        | some best =>
          ⟨⟨query, country, "ok", some best, wholesaleFilter (offers1.map enrich),
              some "wholesale_priority"⟩,
            record_history ts query country "wholesale_priority" best hist,
            [(wholesale_query query, country)]⟩
        | none =>
          match provider query (gl_map country) with
          | .err e =>
            ⟨⟨query, country, "serpapi_error: " ++ e, none, [], none⟩, hist,
              [(wholesale_query query, country), (query, country)]⟩
          | .ok offers2 =>
            if offers2.isEmpty then
              ⟨⟨query, country, "no_shopping_results", none, [], none⟩, hist,
                [(wholesale_query query, country), (query, country)]⟩
            else
              match pyMin (pricedFilter (offers2.map enrich)) with
              | none =>
                ⟨⟨query, country, "no_price_parsed", none, offers2.map enrich,
                    some "retail_fallback"⟩,
                  hist, [(wholesale_query query, country), (query, country)]⟩
              | some best =>
                ⟨⟨query, country, "ok", some best, pricedFilter (offers2.map enrich),
                    some "retail_fallback"⟩,
                  record_history ts query country "retail_fallback" best hist,
                  [(wholesale_query query, country), (query, country)]⟩ := rfl

/-- Tier-1 hard error short-circuits the search. -/
theorem search_tier1_err (provider : String → String → ProviderResponse)
    (ts query country : String) (hist : List LedgerEntry) (e : String)
    (hp : provider (wholesale_query query) (gl_map country) = .err e) :
    search true provider ts query country hist =
      ⟨⟨query, country, "serpapi_error: " ++ e, none, [], none⟩, hist,
        [(wholesale_query query, country)]⟩ := by
  rw [search_true_unfold, hp]

/-- Tier-1 selection succeeds when the wholesale filter has a minimum. -/
theorem search_tier1_hit (provider : String → String → ProviderResponse)
    (ts query country : String) (hist : List LedgerEntry)
    (offers1 : List RawOffer) (best : Offer)
    (hp : provider (wholesale_query query) (gl_map country) = .ok offers1)
    (hmin : pyMin (wholesaleFilter (offers1.map enrich)) = some best) :
    search true provider ts query country hist =
      ⟨⟨query, country, "ok", some best, wholesaleFilter (offers1.map enrich),
          some "wholesale_priority"⟩,
        record_history ts query country "wholesale_priority" best hist,
        [(wholesale_query query, country)]⟩ := by
  rw [search_true_unfold, hp]
  dsimp only
  rw [hmin]

/-- An empty tier-1 wholesale set followed by a tier-2 hard error. -/
theorem search_tier2_err (provider : String → String → ProviderResponse)
    (ts query country : String) (hist : List LedgerEntry)
    (offers1 : List RawOffer) (e : String)
    (hp1 : provider (wholesale_query query) (gl_map country) = .ok offers1)
    (hw : wholesaleFilter (offers1.map enrich) = [])
    (hp2 : provider query (gl_map country) = .err e) :
    search true provider ts query country hist =
      ⟨⟨query, country, "serpapi_error: " ++ e, none, [], none⟩, hist,
        [(wholesale_query query, country), (query, country)]⟩ := by
  rw [search_true_unfold, hp1]
  dsimp only
  rw [hw, show pyMin [] = none from rfl]
  dsimp only
  rw [hp2]

/-- An empty tier-1 wholesale set followed by zero tier-2 offers. -/
theorem search_tier2_empty (provider : String → String → ProviderResponse)
    (ts query country : String) (hist : List LedgerEntry)
    (offers1 : List RawOffer)
    (hp1 : provider (wholesale_query query) (gl_map country) = .ok offers1)
    (hw : wholesaleFilter (offers1.map enrich) = [])
    (hp2 : provider query (gl_map country) = .ok []) :
    search true provider ts query country hist =
      ⟨⟨query, country, "no_shopping_results", none, [], none⟩, hist,
        [(wholesale_query query, country), (query, country)]⟩ := by
  rw [search_true_unfold, hp1]
  dsimp only
  rw [hw, show pyMin [] = none from rfl]
  dsimp only
  rw [hp2]
  rfl

/-- Tier-2 offers exist but none carries a positive parsed price. -/
theorem search_tier2_no_price (provider : String → String → ProviderResponse)
    (ts query country : String) (hist : List LedgerEntry)
    (offers1 offers2 : List RawOffer)
    (hp1 : provider (wholesale_query query) (gl_map country) = .ok offers1)
    (hw : wholesaleFilter (offers1.map enrich) = [])
    (hp2 : provider query (gl_map country) = .ok offers2)
    (hne : offers2.isEmpty = false)
    (hmin : pyMin (pricedFilter (offers2.map enrich)) = none) :
    search true provider ts query country hist =
      ⟨⟨query, country, "no_price_parsed", none, offers2.map enrich,
          some "retail_fallback"⟩,
        hist, [(wholesale_query query, country), (query, country)]⟩ := by
  rw [search_true_unfold, hp1]
  dsimp only
  rw [hw, show pyMin [] = none from rfl]
  dsimp only
  rw [hp2]
  dsimp only
  simp only [hne, Bool.false_eq_true, if_false, hmin]

/-- Tier-2 retail selection succeeds when the priced filter has a minimum. -/
theorem search_tier2_hit (provider : String → String → ProviderResponse)
    (ts query country : String) (hist : List LedgerEntry)
    (offers1 offers2 : List RawOffer) (best : Offer)
    (hp1 : provider (wholesale_query query) (gl_map country) = .ok offers1)
    (hw : wholesaleFilter (offers1.map enrich) = [])
    (hp2 : provider query (gl_map country) = .ok offers2)
    (hne : offers2.isEmpty = false)
    (hmin : pyMin (pricedFilter (offers2.map enrich)) = some best) :
    search true provider ts query country hist =
      ⟨⟨query, country, "ok", some best, pricedFilter (offers2.map enrich),
          some "retail_fallback"⟩,
        record_history ts query country "retail_fallback" best hist,
        [(wholesale_query query, country), (query, country)]⟩ := by
  rw [search_true_unfold, hp1]
  dsimp only
  rw [hw, show pyMin [] = none from rfl]
  dsimp only
  rw [hp2]
  dsimp only
  simp only [hne, Bool.false_eq_true, if_false, hmin]

/-! ### The claims -/

/-- C6: `parse_price_to_number` takes the first unsigned decimal with at
most two fractional digits, ignoring currency symbols and surrounding text:
parse("£9.99") is 9.99, parse("$12.50") is 12.50, parse("9.99 GBP") is
9.99, and digit-free input (in particular "no digits here" and "") yields
the unparsable value 0; the embedding is a total function, so no input
raises. -/
theorem c6_price_parse_behavior :
    priceRat (parse_price_to_number "£9.99") = 9.99
    ∧ priceRat (parse_price_to_number "$12.50") = 12.50
    ∧ priceRat (parse_price_to_number "9.99 GBP") = 9.99
    ∧ parse_price_to_number "no digits here" = 0
    ∧ parse_price_to_number "" = 0
    ∧ ∀ s : String, (∀ c ∈ s.toList, c.isDigit = false) →
        parse_price_to_number s = 0 := by
  refine ⟨?_, ?_, ?_, by decide, by decide, ?_⟩
  · rw [show parse_price_to_number "£9.99" = 999 from by decide]
    norm_num [priceRat]
  · rw [show parse_price_to_number "$12.50" = 1250 from by decide]
    norm_num [priceRat]
  · rw [show parse_price_to_number "9.99 GBP" = 999 from by decide]
    norm_num [priceRat]
  · intro s h
    unfold parse_price_to_number
    rw [scanNumber_eq_none s.toList h]

/-- Witness for C6 at the concrete digit-free input "price unknown". -/
theorem c6_price_parse_behavior_witness :
    (∀ c ∈ ("price unknown" : String).toList, c.isDigit = false)
    ∧ parse_price_to_number "price unknown" = 0 :=
  ⟨by decide, c6_price_parse_behavior.2.2.2.2.2 "price unknown" (by decide)⟩

/-- C7: `looks_wholesale` holds iff the lowercased concatenation of title,
space, source, space, snippet contains some fixed keyword as a plain
substring; it is case-insensitive, and "case" matches inside "Showcase". -/
theorem c7_wholesale_classifier :
    (∀ item : RawOffer, looks_wholesale item = true ↔
      ∃ kw ∈ WHOLESALE_KEYWORDS, ∃ l r, wholesaleText item = l ++ kw.toList ++ r)
    ∧ looks_wholesale { title := some "The Showcase" } = true
    ∧ looks_wholesale { title := some "WHOLESALE Dog Treats Case of 24" } = true
    ∧ looks_wholesale { title := some "Premium Dog Treats 200g" } = false := by
  refine ⟨?_, by decide, by decide, by decide⟩
  intro item
  unfold looks_wholesale textHas
  rw [List.any_eq_true]
  constructor
  · rintro ⟨kw, hkw, hhas⟩
    exact ⟨kw, hkw, (listHas_iff kw.toList (wholesaleText item)).mp hhas⟩
  · rintro ⟨kw, hkw, hdec⟩
    exact ⟨kw, hkw, (listHas_iff kw.toList (wholesaleText item)).mpr hdec⟩

/-- Witness for C7: the "Showcase" offer really decomposes around a
keyword. -/
theorem c7_wholesale_classifier_witness :
    ∃ kw ∈ WHOLESALE_KEYWORDS, ∃ l r,
      wholesaleText { title := some "The Showcase" } = l ++ kw.toList ++ r :=
  (c7_wholesale_classifier.1 { title := some "The Showcase" }).mp (by decide)

/-- C4: a hard tier-1 provider error yields the provider-error payload with
empty results, no best, the ledger unchanged and no tier-2 call; a hard
tier-2 error short-circuits the same way (the code's "serpapi_error: "
message is the PROVIDER_ERROR status). -/
theorem c4_provider_error (provider : String → String → ProviderResponse)
    (ts query country : String) (hist : List LedgerEntry) (e : String) :
    (provider (wholesale_query query) (gl_map country) = .err e →
      search true provider ts query country hist =
        ⟨⟨query, country, "serpapi_error: " ++ e, none, [], none⟩, hist,
          [(wholesale_query query, country)]⟩)
    ∧ ∀ offers1, provider (wholesale_query query) (gl_map country) = .ok offers1 →
        wholesaleFilter (offers1.map enrich) = [] →
        provider query (gl_map country) = .err e →
        search true provider ts query country hist =
          ⟨⟨query, country, "serpapi_error: " ++ e, none, [], none⟩, hist,
            [(wholesale_query query, country), (query, country)]⟩ :=
  ⟨fun hp => search_tier1_err provider ts query country hist e hp,
   fun offers1 hp1 hw hp2 =>
     search_tier2_err provider ts query country hist offers1 e hp1 hw hp2⟩

/-- Witness for C4: a concrete erroring provider short-circuits tier 1. -/
theorem c4_provider_error_witness :
    search true cexProvErr "t0" "dog treats" "uk" [] =
      ⟨⟨"dog treats", "uk", "serpapi_error: " ++ "invalid api key", none, [], none⟩,
        [], [(wholesale_query "dog treats", "uk")]⟩ :=
  (c4_provider_error cexProvErr "t0" "dog treats" "uk" [] "invalid api key").1 rfl

/-- C9: once tier 2 is reached without a hard error, zero tier-2 offers
give NO_RESULTS with empty results and no best, and non-empty tier-2 offers
none of which has a positive parsed price give NO_PRICE_PARSED with no best
and the full (enriched but unfiltered) tier-2 list in `results`. -/
theorem c9_tier2_outcomes (provider : String → String → ProviderResponse)
    (ts query country : String) (hist : List LedgerEntry) (offers1 : List RawOffer)
    (hp1 : provider (wholesale_query query) (gl_map country) = .ok offers1)
    (hw : wholesaleFilter (offers1.map enrich) = []) :
    (provider query (gl_map country) = .ok [] →
      (search true provider ts query country hist).result =
        ⟨query, country, "no_shopping_results", none, [], none⟩)
    ∧ ∀ offers2, provider query (gl_map country) = .ok offers2 →
        offers2.isEmpty = false →
        pricedFilter (offers2.map enrich) = [] →
        (search true provider ts query country hist).result =
          ⟨query, country, "no_price_parsed", none, offers2.map enrich,
            some "retail_fallback"⟩ := by
  constructor
  · intro hp2
    rw [search_tier2_empty provider ts query country hist offers1 hp1 hw hp2]
  · intro offers2 hp2 hne hpf
    have hmin : pyMin (pricedFilter (offers2.map enrich)) = none := by
      rw [hpf]; rfl
    rw [search_tier2_no_price provider ts query country hist offers1 offers2 hp1 hw
      hp2 hne hmin]

/-- Witness for C9: the always-empty provider produces NO_RESULTS. -/
theorem c9_tier2_outcomes_witness :
    (search true cexProvEmpty "t0" "anything" "uk" []).result =
      ⟨"anything", "uk", "no_shopping_results", none, [], none⟩ :=
  (c9_tier2_outcomes cexProvEmpty "t0" "anything" "uk" [] [] rfl (by decide)).1 rfl

/-- C8: the ledger keeps at most HISTORY_LIMIT entries FIFO — appending
HISTORY_LIMIT + 1 entries to an empty ledger leaves exactly HISTORY_LIMIT
entries with the first one evicted; a history read with the limit clamped
to [1, HISTORY_LIMIT] returns up to limit entries newest-first, and reading
one entry after an append returns the entry just appended. -/
theorem c8_ledger_bound :
    (∀ es : List LedgerEntry, es.length = HISTORY_LIMIT + 1 →
      es.foldl dequeAppend [] = es.drop 1
      ∧ (es.foldl dequeAppend []).length = HISTORY_LIMIT)
    ∧ (∀ (limit : Int) (hist : List LedgerEntry),
        get_history limit hist
          = hist.reverse.take (max 1 (min limit (HISTORY_LIMIT : Int))).toNat)
    ∧ ∀ (hist : List LedgerEntry) (e : LedgerEntry),
        get_history 1 (dequeAppend hist e) = [e] := by
  refine ⟨?_, get_history_eq, get_history_one_dequeAppend⟩
  intro es hlen
  have h := foldl_dequeAppend es [] (by simp)
  rw [List.nil_append] at h
  have hdrop : es.length - HISTORY_LIMIT = 1 := by omega
  rw [hdrop] at h
  refine ⟨h, ?_⟩
  rw [h, List.length_drop]
  omega

/-- Witness for C8: 201 copies of a concrete entry collapse to the last
200. -/
theorem c8_ledger_bound_witness :
    (List.replicate (HISTORY_LIMIT + 1) e0).length = HISTORY_LIMIT + 1
    ∧ ((List.replicate (HISTORY_LIMIT + 1) e0).foldl dequeAppend []
        = (List.replicate (HISTORY_LIMIT + 1) e0).drop 1
      ∧ ((List.replicate (HISTORY_LIMIT + 1) e0).foldl dequeAppend []).length
        = HISTORY_LIMIT) :=
  ⟨by simp, c8_ledger_bound.1 (List.replicate (HISTORY_LIMIT + 1) e0) (by simp)⟩

/-- C1 counterexample. The claim's filtered set — offers that are usable in
the spec's sense (positive price AND non-empty link) and wholesale — is the
one-element list holding `enrich cexO2`, so the claim demands that offer as
`best`; the code, which never reads `link`, instead selects the cheaper
linkless offer `enrich cexO1`. -/
theorem c1_counterexample :
    (([cexO1, cexO2].map enrich).filter fun i => looks_wholesale i.raw && usableSpec i)
        = [enrich cexO2]
    ∧ (search true cexProv12 "t0" "crates" "uk" []).result.best = some (enrich cexO1)
    ∧ enrich cexO1 ≠ enrich cexO2 :=
  ⟨by decide, by decide, by decide⟩

/-- C1 (amended: "usable" is what the code checks, namely a positive parsed
price — the link is not consulted). If the tier-1 response filters to a
non-empty wholesale set, the search returns OK in WHOLESALE_PRIORITY mode,
`results` is the full filtered set, a ledger entry is appended, and `best`
is the first offer of the set attaining the minimal price: everything
strictly before it is strictly more expensive and it is a lower bound of
the whole set. -/
theorem c1_wholesale_selection (provider : String → String → ProviderResponse)
    (ts query country : String) (hist : List LedgerEntry) (offers1 : List RawOffer)
    (hp : provider (wholesale_query query) (gl_map country) = .ok offers1)
    (hne : wholesaleFilter (offers1.map enrich) ≠ []) :
    ∃ best l1 l2,
      search true provider ts query country hist =
        ⟨⟨query, country, "ok", some best, wholesaleFilter (offers1.map enrich),
            some "wholesale_priority"⟩,
          record_history ts query country "wholesale_priority" best hist,
          [(wholesale_query query, country)]⟩
      ∧ wholesaleFilter (offers1.map enrich) = l1 ++ best :: l2
      ∧ (∀ x ∈ l1, best.price_value < x.price_value)
      ∧ ∀ x ∈ wholesaleFilter (offers1.map enrich),
          best.price_value ≤ x.price_value := by
  rcases hmin : pyMin (wholesaleFilter (offers1.map enrich)) with _ | best
  · exact absurd ((pyMin_eq_none _).mp hmin) hne
  · obtain ⟨⟨l1, l2, hdec, hgt⟩, hle⟩ := pyMin_spec hmin
    exact ⟨best, l1, l2,
      search_tier1_hit provider ts query country hist offers1 best hp hmin,
      hdec, hgt, hle⟩

/-- Witness for C1 on the two fixture offers. -/
theorem c1_wholesale_selection_witness :
    ∃ best l1 l2,
      search true cexProv12 "t1" "boxes" "uk" [] =
        ⟨⟨"boxes", "uk", "ok", some best,
            wholesaleFilter ([cexO1, cexO2].map enrich), some "wholesale_priority"⟩,
          record_history "t1" "boxes" "uk" "wholesale_priority" best [],
          [(wholesale_query "boxes", "uk")]⟩
      ∧ wholesaleFilter ([cexO1, cexO2].map enrich) = l1 ++ best :: l2
      ∧ (∀ x ∈ l1, best.price_value < x.price_value)
      ∧ ∀ x ∈ wholesaleFilter ([cexO1, cexO2].map enrich),
          best.price_value ≤ x.price_value :=
  c1_wholesale_selection cexProv12 "t1" "boxes" "uk" [] [cexO1, cexO2] rfl (by decide)

/-- C2 counterexample. A search returning OK whose best offer has no link
at all: the claim's usability invariant (positive price AND non-empty link)
is false of the selected best. -/
theorem c2_counterexample :
    (search true cexProv1 "t0" "crates" "uk" []).result.message = "ok"
    ∧ (search true cexProv1 "t0" "crates" "uk" []).result.best = some (enrich cexO1)
    ∧ optStr (enrich cexO1).raw.link = ""
    ∧ usableSpec (enrich cexO1) = false :=
  ⟨by decide, by decide, by decide, by decide⟩

/-- C2 (amended: eligibility is exactly a positive parsed price; the link
is never checked). An offer belongs to the tier-2 candidate set iff it is
among the parsed offers and has a positive parsed price; every search that
returns the OK message has a best offer with positive parsed price, and
every offer in its `results` has a positive parsed price. -/
theorem c2_positive_price (hasKey : Bool) (provider : String → String → ProviderResponse)
    (ts query country : String) (hist : List LedgerEntry)
    (hok : (search hasKey provider ts query country hist).result.message = "ok") :
    (∀ (l : List Offer) (x : Offer),
      x ∈ pricedFilter l ↔ x ∈ l ∧ 0 < x.price_value)
    ∧ (∃ b, (search hasKey provider ts query country hist).result.best = some b
      ∧ 0 < b.price_value)
    ∧ ∀ x ∈ (search hasKey provider ts query country hist).result.results,
        0 < x.price_value := by
  refine ⟨fun l x => by simp [pricedFilter, List.mem_filter], ?_⟩
  cases hasKey
  · rw [search_missing_key] at hok
    exact absurd hok msg_ne_ok_missing
  · rcases hp : provider (wholesale_query query) (gl_map country) with e | offers1
    · rw [search_tier1_err provider ts query country hist e hp] at hok
      exact absurd hok (serpapi_msg_ne_ok e)
    · rcases hmin : pyMin (wholesaleFilter (offers1.map enrich)) with _ | best
      · have hw := (pyMin_eq_none _).mp hmin
        rcases hp2 : provider query (gl_map country) with e2 | offers2
        · rw [search_tier2_err provider ts query country hist offers1 e2 hp hw hp2]
            at hok
          exact absurd hok (serpapi_msg_ne_ok e2)
        · cases offers2 with
          | nil =>
            rw [search_tier2_empty provider ts query country hist offers1 hp hw hp2]
              at hok
            exact absurd hok msg_ne_ok_no_results
          | cons o os =>
            rcases hmin2 : pyMin (pricedFilter ((o :: os).map enrich)) with _ | best2
            · rw [search_tier2_no_price provider ts query country hist offers1
                (o :: os) hp hw hp2 rfl hmin2] at hok
              exact absurd hok msg_ne_ok_no_price
            · rw [search_tier2_hit provider ts query country hist offers1
                (o :: os) best2 hp hw hp2 rfl hmin2]
              exact ⟨⟨best2, rfl, mem_pricedFilter_pos (pyMin_mem hmin2)⟩,
                fun x hx => mem_pricedFilter_pos hx⟩
      · rw [search_tier1_hit provider ts query country hist offers1 best hp hmin]
        exact ⟨⟨best, rfl, mem_wholesaleFilter_pos (pyMin_mem hmin)⟩,
          fun x hx => mem_wholesaleFilter_pos hx⟩

/-- Witness for C2 on a concrete OK search. -/
theorem c2_positive_price_witness :
    (∀ (l : List Offer) (x : Offer),
      x ∈ pricedFilter l ↔ x ∈ l ∧ 0 < x.price_value)
    ∧ (∃ b, (search true cexProv1 "t2" "pallets" "uk" []).result.best = some b
      ∧ 0 < b.price_value)
    ∧ ∀ x ∈ (search true cexProv1 "t2" "pallets" "uk" []).result.results,
        0 < x.price_value :=
  c2_positive_price true cexProv1 "t2" "pallets" "uk" [] (by decide)

/-- C3 counterexample. Tier 1 yields no offer that is usable in the spec's
sense (positive price AND non-empty link) and wholesale — the spec-usable
wholesale set is empty — yet the code makes only the single tier-1 provider
call and never re-queries. -/
theorem c3_counterexample :
    (([cexO1].map enrich).filter fun i => looks_wholesale i.raw && usableSpec i) = []
    ∧ (search true cexProv1 "t0" "crates" "uk" []).calls
        = [(wholesale_query "crates", "uk")] :=
  ⟨by decide, by decide⟩

/-- C3 (amended: the fallback triggers when no tier-1 offer has a positive
parsed price and classifies wholesale — the link plays no role). In that
case, and absent a tier-1 hard error, the provider is invoked a second time
with the original unmodified query text and the same region; moreover no
search ever reports WHOLESALE_PRIORITY mode with a best offer that does not
classify as wholesale. -/
theorem c3_retail_fallback (provider : String → String → ProviderResponse)
    (ts query country : String) (hist : List LedgerEntry) :
    (∀ offers1, provider (wholesale_query query) (gl_map country) = .ok offers1 →
      wholesaleFilter (offers1.map enrich) = [] →
      (search true provider ts query country hist).calls =
        [(wholesale_query query, country), (query, country)])
    ∧ ∀ (hasKey : Bool) (b : Offer),
        (search hasKey provider ts query country hist).result.mode
          = some "wholesale_priority" →
        (search hasKey provider ts query country hist).result.best = some b →
        looks_wholesale b.raw = true := by
  constructor
  · intro offers1 hp hw
    rcases hp2 : provider query (gl_map country) with e2 | offers2
    · rw [search_tier2_err provider ts query country hist offers1 e2 hp hw hp2]
    · cases offers2 with
      | nil =>
        rw [search_tier2_empty provider ts query country hist offers1 hp hw hp2]
      | cons o os =>
        rcases hmin2 : pyMin (pricedFilter ((o :: os).map enrich)) with _ | best2
        · rw [search_tier2_no_price provider ts query country hist offers1
            (o :: os) hp hw hp2 rfl hmin2]
        · rw [search_tier2_hit provider ts query country hist offers1
            (o :: os) best2 hp hw hp2 rfl hmin2]
  · intro hasKey b hmode hbest
    cases hasKey
    · rw [search_missing_key] at hmode
      exact absurd hmode (by simp)
    · rcases hp : provider (wholesale_query query) (gl_map country) with e | offers1
      · rw [search_tier1_err provider ts query country hist e hp] at hmode
        exact absurd hmode (by simp)
      · rcases hmin : pyMin (wholesaleFilter (offers1.map enrich)) with _ | best
        · have hw := (pyMin_eq_none _).mp hmin
          rcases hp2 : provider query (gl_map country) with e2 | offers2
          · rw [search_tier2_err provider ts query country hist offers1 e2 hp hw
              hp2] at hmode
            exact absurd hmode (by simp)
          · cases offers2 with
            | nil =>
              rw [search_tier2_empty provider ts query country hist offers1 hp hw
                hp2] at hmode
              exact absurd hmode (by simp)
            | cons o os =>
              rcases hmin2 : pyMin (pricedFilter ((o :: os).map enrich)) with _ | b2
              · rw [search_tier2_no_price provider ts query country hist offers1
                  (o :: os) hp hw hp2 rfl hmin2] at hmode
                rw [Option.some.injEq] at hmode
                exact absurd hmode (by decide)
              · rw [search_tier2_hit provider ts query country hist offers1
                  (o :: os) b2 hp hw hp2 rfl hmin2] at hmode
                rw [Option.some.injEq] at hmode
                exact absurd hmode (by decide)
        · rw [search_tier1_hit provider ts query country hist offers1 best hp hmin]
            at hbest
          rw [Option.some.injEq] at hbest
          rw [← hbest]
          exact mem_wholesaleFilter_wholesale (pyMin_mem hmin)

/-- Witness for C3 with a concrete retail-only provider: both calls happen,
the second with the original query. -/
theorem c3_retail_fallback_witness :
    (search true cexProvRetail "t0" "plain treats" "uk" []).calls =
      [(wholesale_query "plain treats", "uk"), ("plain treats", "uk")] :=
  (c3_retail_fallback cexProvRetail "t0" "plain treats" "uk" []).1 []
    (by decide) (by decide)

/-- C5: a search's best offer exists exactly when its message is OK, and
the ledger is left untouched whenever best is absent (for every credential
state and every provider behaviour). -/
theorem c5_best_iff_ok (hasKey : Bool) (provider : String → String → ProviderResponse)
    (ts query country : String) (hist : List LedgerEntry) :
    ((search hasKey provider ts query country hist).result.best.isSome = true ↔
      (search hasKey provider ts query country hist).result.message = "ok")
    ∧ ((search hasKey provider ts query country hist).result.best = none →
      (search hasKey provider ts query country hist).history = hist) := by
  cases hasKey
  · rw [search_missing_key]
    exact ⟨⟨(fun h => nomatch h), fun h => absurd h msg_ne_ok_missing⟩, fun _ => rfl⟩
  · rcases hp : provider (wholesale_query query) (gl_map country) with e | offers1
    · rw [search_tier1_err provider ts query country hist e hp]
      exact ⟨⟨fun h => by simp at h, fun h => absurd h (serpapi_msg_ne_ok e)⟩,
        fun _ => rfl⟩
    · rcases hmin : pyMin (wholesaleFilter (offers1.map enrich)) with _ | best
      · have hw := (pyMin_eq_none _).mp hmin
        rcases hp2 : provider query (gl_map country) with e2 | offers2
        · rw [search_tier2_err provider ts query country hist offers1 e2 hp hw hp2]
          exact ⟨⟨fun h => by simp at h, fun h => absurd h (serpapi_msg_ne_ok e2)⟩,
            fun _ => rfl⟩
        · cases offers2 with
          | nil =>
            rw [search_tier2_empty provider ts query country hist offers1 hp hw hp2]
            exact ⟨⟨(fun h => nomatch h), fun h => absurd h msg_ne_ok_no_results⟩,
              fun _ => rfl⟩
          | cons o os =>
            rcases hmin2 : pyMin (pricedFilter ((o :: os).map enrich)) with _ | b2
            · rw [search_tier2_no_price provider ts query country hist offers1
                (o :: os) hp hw hp2 rfl hmin2]
              exact ⟨⟨(fun h => nomatch h), fun h => absurd h msg_ne_ok_no_price⟩,
                fun _ => rfl⟩
            · rw [search_tier2_hit provider ts query country hist offers1
                (o :: os) b2 hp hw hp2 rfl hmin2]
              exact ⟨⟨fun _ => rfl, fun _ => rfl⟩, fun h => nomatch h⟩
      · rw [search_tier1_hit provider ts query country hist offers1 best hp hmin]
        exact ⟨⟨fun _ => rfl, fun _ => rfl⟩, fun h => nomatch h⟩

/-- Witness for C5 at a concrete provider with an OK outcome. -/
theorem c5_best_iff_ok_witness :
    (((search true cexProv12 "t3" "cartons" "uk" []).result.best.isSome = true ↔
      (search true cexProv12 "t3" "cartons" "uk" []).result.message = "ok"))
    ∧ ((search true cexProv12 "t3" "cartons" "uk" []).result.best = none →
      (search true cexProv12 "t3" "cartons" "uk" []).history = []) :=
  c5_best_iff_ok true cexProv12 "t3" "cartons" "uk" []

/-- C10: whenever a search reports WHOLESALE_PRIORITY mode (the tier-1 OK
outcome), the entry appended to the ledger records the caller's original
query text and region, not the wholesale-biased query that was sent to the
provider. -/
theorem c10_ledger_query (hasKey : Bool) (provider : String → String → ProviderResponse)
    (ts query country : String) (hist : List LedgerEntry)
    (hmode : (search hasKey provider ts query country hist).result.mode
      = some "wholesale_priority") :
    ∃ e : LedgerEntry,
      (search hasKey provider ts query country hist).history = dequeAppend hist e
      ∧ e.query = query ∧ e.country = country ∧ e.mode = "wholesale_priority"
      ∧ e.query ≠ wholesale_query query := by
  cases hasKey
  · rw [search_missing_key] at hmode
    exact absurd hmode (by simp)
  · rcases hp : provider (wholesale_query query) (gl_map country) with e | offers1
    · rw [search_tier1_err provider ts query country hist e hp] at hmode
      exact absurd hmode (by simp)
    · rcases hmin : pyMin (wholesaleFilter (offers1.map enrich)) with _ | best
      · have hw := (pyMin_eq_none _).mp hmin
        rcases hp2 : provider query (gl_map country) with e2 | offers2
        · rw [search_tier2_err provider ts query country hist offers1 e2 hp hw hp2]
            at hmode
          exact absurd hmode (by simp)
        · cases offers2 with
          | nil =>
            rw [search_tier2_empty provider ts query country hist offers1 hp hw hp2]
              at hmode
            exact absurd hmode (by simp)
          | cons o os =>
            rcases hmin2 : pyMin (pricedFilter ((o :: os).map enrich)) with _ | b2
            · rw [search_tier2_no_price provider ts query country hist offers1
                (o :: os) hp hw hp2 rfl hmin2] at hmode
              rw [Option.some.injEq] at hmode
              exact absurd hmode (by decide)
            · rw [search_tier2_hit provider ts query country hist offers1
                (o :: os) b2 hp hw hp2 rfl hmin2] at hmode
              rw [Option.some.injEq] at hmode
              exact absurd hmode (by decide)
      · rw [search_tier1_hit provider ts query country hist offers1 best hp hmin]
        refine ⟨_, rfl, rfl, rfl, rfl, ?_⟩
        intro hq
        have hq2 : query = wholesale_query query := hq
        have hlen := congrArg String.length hq2
        rw [wholesale_query, String.length_append] at hlen
        have hpos : 0 < (" wholesale bulk trade b2b case pack" : String).length := by
          decide
        omega

/-- Witness for C10 on a concrete tier-1 hit. -/
theorem c10_ledger_query_witness :
    ∃ e : LedgerEntry,
      (search true cexProv1 "t4" "crates" "uk" []).history = dequeAppend [] e
      ∧ e.query = "crates" ∧ e.country = "uk" ∧ e.mode = "wholesale_priority"
      ∧ e.query ≠ wholesale_query "crates" :=
  c10_ledger_query true cexProv1 "t4" "crates" "uk" [] (by decide)

end PriceFinder
